import Mathlib

/-!
Verification of the build-and-deploy orchestrator (watch / sync / build / ftp
modules of the website-build repository) against its specification.

Shallow embedding conventions:
- paths are modelled as `List Char` (the characters of the JS string);
- JS plain objects used as maps (`mtimes`, `pushing`, the persisted
  `local_mtimes.json`) are modelled as association lists with `lookupA` /
  `setA`; a key that is absent or was never written maps to `none`,
  mirroring the JS `undefined`;
- modification times are `Nat` (milliseconds, the value of
  `+date` in the source);
- network effects (upload, download, lastMod, pool acquire and release)
  are modelled by explicit effect flags and by a `remote` map
  `List Char -> Nat` giving the remote modification time of each remote
  path (the 550 handling of `MyClient.lastMod` returns epoch 0 for a
  missing file, so a total function is faithful).
-/

/-- Lookup in an association list, modelling indexing a JS object used as a
map: an absent key yields `none` (JS `undefined`). From the maps `mtimes`,
`pushing` and the persisted `local_mtimes.json` of the source. -/
def lookupA {α : Type} (m : List (List Char × α)) (k : List Char) : Option α :=
  match m with
  | [] => none
  | (k2, v) :: r => if k2 = k then some v else lookupA r k

/-- Assignment `obj[k] = v` on a JS object used as a map. -/
def setA {α : Type} (m : List (List Char × α)) (k : List Char) (v : α) :
    List (List Char × α) :=
  match m with
  | [] => [(k, v)]
  | (k2, v2) :: r => if k2 = k then (k, v) :: r else (k2, v2) :: setA r k v

theorem lookupA_setA_self {α : Type} (m : List (List Char × α)) (k : List Char)
    (v : α) : lookupA (setA m k v) k = some v := by
  induction m with
  | nil => simp [lookupA, setA]
  | cons e r ih =>
    obtain ⟨k2, v2⟩ := e
    by_cases h : k2 = k
    · simp [lookupA, setA, h]
    · simp [lookupA, setA, h, ih]

namespace Build

/-- The suffix `".jsx"` as a list of characters. -/
def jsxSuffix : List Char := ".jsx".toList

/-- Embeds `build.pathToDest` (src/build/build.ts lines 27-32 and
src/build/build.js lines 36-41):
`if (p.substr(-4, 4) === ".jsx") p = p.slice(0, -1); return p`.
JS `p.substr(-4, 4)` starts at `max(len - 4, 0)` and takes at most four
characters, i.e. the last `min(4, len)` characters: `List.drop (len - 4)`
with truncated `Nat` subtraction. JS `p.slice(0, -1)` drops the final
character: `List.dropLast`. -/
def pathToDest (p : List Char) : List Char :=
  if p.drop (p.length - 4) = jsxSuffix then p.dropLast else p

theorem jsx_suffix_iff (p : List Char) :
    jsxSuffix <:+ p ↔ p.drop (p.length - 4) = jsxSuffix := by
  have hlen : jsxSuffix.length = 4 := rfl
  rw [List.suffix_iff_eq_drop, hlen]
  exact ⟨fun h => h.symm, fun h => h.symm⟩

end Build

namespace Watch

/-- Embeds the change-detection test of the watcher
(src/unnamed/part_002 line 81 and src/build/watch.js line 89):
`!mtimes[p] || mtimes[p] < mtime`. A JS number is falsy when it is 0 (or
the key is absent, giving `undefined`), hence the `c = 0` disjunct. -/
def shouldProcess (cached : Option Nat) (observed : Nat) : Bool :=
  match cached with
  | none => true
  | some c => decide (c = 0) || decide (c < observed)

/-- The change-detection predicate exactly as the claim words it: true iff
no cached value exists or the cached value is strictly less than the
observed mtime. Stated separately from `shouldProcess` (which embeds the
source) so the two can be compared. -/
def shouldProcessSpec (cached : Option Nat) (observed : Nat) : Prop :=
  cached = none ∨ ∃ c, cached = some c ∧ c < observed

end Watch

/-- Claim C10: `pathToDest` removes exactly the final character of a path
ending in ".jsx" (so "x.jsx" maps to "x.js") and returns every other path
unchanged. -/
theorem pathToDest_jsx_mapping :
    (∀ p : List Char,
        Build.pathToDest p =
          if Build.jsxSuffix <:+ p then p.dropLast else p) ∧
    Build.pathToDest ("x.jsx".toList) = "x.js".toList := by
  constructor
  · intro p
    unfold Build.pathToDest
    by_cases h : Build.jsxSuffix <:+ p
    · rw [if_pos ((Build.jsx_suffix_iff p).mp h), if_pos h]
    · rw [if_neg (fun hd => h ((Build.jsx_suffix_iff p).mpr hd)), if_neg h]
  · decide

/-- Claim C6 counterexample: with a cached value of 0 and an observed mtime
of 0 the code returns true (JS `!0` is true), while the claim requires
false because a cached value exists and is not strictly less than the
observed one. -/
theorem shouldProcess_claim_counterexample :
    Watch.shouldProcess (some 0) 0 = true ∧
    ¬ Watch.shouldProcessSpec (some 0) 0 := by
  refine ⟨rfl, ?_⟩
  rintro (h | ⟨c, hc, hlt⟩)
  · exact Option.noConfusion h
  · obtain rfl : (0 : Nat) = c := Option.some.inj hc
    exact Nat.not_lt_zero 0 hlt

/-- Claim C6, amended: `shouldProcess` returns true iff no cached value
exists, or the cached value is 0 (a falsy JS number), or the cached value
is strictly less than the observed mtime. In particular it returns false
when the cached value is nonzero and equal to the observed mtime, but true
when both are zero. -/
theorem shouldProcess_amended_iff :
    ∀ (cached : Option Nat) (observed : Nat),
      Watch.shouldProcess cached observed = true ↔
        (cached = none ∨ cached = some 0 ∨
          ∃ c, cached = some c ∧ c < observed) := by
  intro cached observed
  cases cached with
  | none => simp [Watch.shouldProcess]
  | some c => simp [Watch.shouldProcess]

namespace Paths

/-- Embeds `paths.toRemotePath` (src/build/paths.ts lines 24-27):
`path.posix.join("/", p.split(path.sep).join(path.posix.sep))`. On a posix
platform the separator substitution is the identity, and for an
already-normalised relative or absolute path `path.posix.join("/", p)`
prefixes a slash after collapsing any leading slashes. -/
def toRemotePath (p : List Char) : List Char :=
  '/' :: p.dropWhile (fun c => c = '/')

theorem dropWhile_dropWhile (f : Char → Bool) (l : List Char) :
    (l.dropWhile f).dropWhile f = l.dropWhile f := by
  induction l with
  | nil => rfl
  | cons c r ih =>
    by_cases h : f c
    · simp [List.dropWhile_cons, h, ih]
    · simp [List.dropWhile_cons, h]

/-- `toRemotePath` is idempotent, which is why `pullOne` (which applies it
before calling `client.lastMod`, whose `MyClient` override applies it
again) and `push` (which hands `client.lastMod` the raw path) address the
same remote file. -/
theorem toRemotePath_idem (p : List Char) :
    toRemotePath (toRemotePath p) = toRemotePath p := by
  unfold toRemotePath
  simp [List.dropWhile_cons, dropWhile_dropWhile]

end Paths

namespace MM

/-- Fuel-indexed single-segment glob matcher: `*` matches any run of
characters inside one path segment (the source loads `minimatch` with
`dot: true`, so a leading dot is matched as well); every other character
matches itself. Each recursive call shortens pattern-plus-string, so fuel
`|pat| + |s| + 1` is always sufficient. -/
def segMatchF : Nat → List Char → List Char → Bool
  | 0, _, _ => false
  | _ + 1, [], [] => true
  | _ + 1, [], _ :: _ => false
  | f + 1, '*' :: ps, s =>
    segMatchF f ps s ||
      (match s with
       | [] => false
       | _ :: s2 => segMatchF f ('*' :: ps) s2)
  | _ + 1, _ :: _, [] => false
  | f + 1, c :: ps, d :: s => (c == d) && segMatchF f ps s

/-- Matches one glob segment against one path segment. -/
def segMatch (pat s : List Char) : Bool :=
  segMatchF (pat.length + s.length + 1) pat s

/-- Splits a pattern or path on the posix separator. -/
def splitOnSlash : List Char → List (List Char)
  | [] => [[]]
  | c :: r =>
    match splitOnSlash r with
    | [] => [[]]
    | seg :: rest => if c = '/' then [] :: seg :: rest else (c :: seg) :: rest

/-- Segment lists match when they have equal length and match pairwise
(a `*` never crosses a `/`, minimatch semantics for patterns without
globstar, which is the shape of the patterns in `data/.sync`). -/
def segsMatch : List (List Char) → List (List Char) → Bool
  | [], [] => true
  | a :: as, b :: bs => segMatch a b && segsMatch as bs
  | _, _ => false

/-- Embeds `minimatchObj.match(p)` for one loaded glob pattern. -/
def matchGlob (pat p : List Char) : Bool :=
  segsMatch (splitOnSlash pat) (splitOnSlash p)

end MM

namespace Sync

/-- Embeds `sync.containsPath` (src/unnamed/part_003 lines 67-73): after
the registry-ready barrier, the path is a sync file iff some loaded
pattern matches it. The `registry` argument is the loaded `minimatchs`
array. -/
def containsPath (registry : List (List Char)) (p : List Char) : Bool :=
  registry.any (fun pat => MM.matchGlob pat p)

/-- A JS Promise object, as a value. `sync.containsPath` is `async`, so
calling it returns such an object. -/
structure JSPromise (α : Type) where
  val : α

/-- JS truthiness of a Promise object: every object is truthy, whatever
value it will eventually settle to. This is the semantics of the
un-awaited test `if (!containsPath(p))` in `sync.push`. -/
def jsTruthy {α : Type} (_ : JSPromise α) : Bool :=
  true

/-- The Promise returned by calling `containsPath(p)` without `await`
(src/unnamed/part_003 line 87, src/unnamed/part_006 line 96,
src/unnamed/part_007 line 97). -/
def containsPathProm (registry : List (List Char)) (p : List Char) :
    JSPromise Bool :=
  ⟨containsPath registry p⟩

/-- Result of one run of the body of `sync.push`: the final remote-mtimes
map (`PullRecord`), whether the upload was performed, and whether the body
rejected with the NotASyncFile error. -/
structure PushResult where
  mtimes : List (List Char × Nat)
  uploaded : Bool
  rejected : Bool

/-- Embeds the body of `sync.push` (src/unnamed/part_003 lines 85-99; the
guard is identical in part_006 lines 96-98 and part_007 line 97), on its
success path for the transfer itself:
`if (!containsPath(p)) throw ...;` then upload the local bytes, chmod 666,
and record `mtimes[p] = +await client.lastMod(p)`. The guard tests the
truthiness of the un-awaited Promise returned by `containsPath`, embedded
by `jsTruthy` of `containsPathProm`. `remote` maps a remote path to the
modification time `client.lastMod` reads back after the upload. -/
def push (registry : List (List Char)) (remote : List Char → Nat)
    (mt : List (List Char × Nat)) (p : List Char) : PushResult :=
  if jsTruthy (containsPathProm registry p) = false then
    ⟨mt, false, true⟩
  else
    ⟨setA mt p (remote (Paths.toRemotePath p)), true, false⟩

end Sync

/-- Claim C1: the claim says a push of a path matching no registry pattern
rejects with NotASyncFile before any upload and leaves PullRecord
untouched. In the code the guard `if (!containsPath(p))` does not await
`containsPath`, so it tests the truthiness of a Promise object, which is
always true: the throw is unreachable, and pushing `data/scores.txt`
against the registry `[data/*.db]` (which indeed does not match it, while
`data/scores.db` does) uploads the file and writes its read-back remote
mtime into PullRecord. -/
theorem push_not_a_sync_file_guard_dead :
    (∀ (registry : List (List Char)) (p : List Char),
        Sync.jsTruthy (Sync.containsPathProm registry p) = true) ∧
    Sync.containsPath ["data/*.db".toList] ("data/scores.txt".toList) = false ∧
    Sync.containsPath ["data/*.db".toList] ("data/scores.db".toList) = true ∧
    (Sync.push ["data/*.db".toList] (fun _ => 42) []
        ("data/scores.txt".toList)).rejected = false ∧
    (Sync.push ["data/*.db".toList] (fun _ => 42) []
        ("data/scores.txt".toList)).uploaded = true ∧
    lookupA (Sync.push ["data/*.db".toList] (fun _ => 42) []
        ("data/scores.txt".toList)).mtimes ("data/scores.txt".toList) =
      some 42 := by
  refine ⟨fun _ _ => rfl, by decide, by decide, rfl, rfl, by decide⟩

namespace Sync

/-- The mutable module state of sync.ts (src/unnamed/part_003): `mtimes`
(the PullRecord), `pushing` (per path, the identity of the
most-recently-enqueued push promise, `none` for the JS `null`),
`pullRunning`, and a counter supplying fresh promise identities (two
distinct `push` calls always allocate two distinct promise objects, so
object identity is embedded as a fresh `Nat`). -/
structure SyncSt where
  mtimes : List (List Char × Nat)
  pushing : List (List Char × Option Nat)
  pullRunning : Bool
  nextId : Nat

/-- Embeds the synchronous prefix of `sync.pull`
(src/unnamed/part_003 lines 132-146): return immediately when a pull is
already running or any entry of `pushing` is truthy (a promise; `null` is
falsy); otherwise set the running flag and start `pullOne` for every key
of `mtimes`. Returns the new state and the list of paths for which a
`pullOne` was started. -/
def pull (st : SyncSt) : SyncSt × List (List Char) :=
  if st.pullRunning then (st, [])
  else if st.pushing.any (fun e => e.2.isSome) then (st, [])
  else ({ st with pullRunning := true }, st.mtimes.map (fun e => e.1))

/-- Embeds the synchronous part of `sync.push`
(src/unnamed/part_003 lines 84, 101): a fresh promise `pushProm` is
allocated and stored in `pushing[p]`. Returns the new state and the
identity of the allocated promise. -/
def enqueuePush (st : SyncSt) (p : List Char) : SyncSt × Nat :=
  ({ st with
      pushing := setA st.pushing p (some st.nextId),
      nextId := st.nextId + 1 },
    st.nextId)

/-- Embeds the tail of the `sync.push` body
(src/unnamed/part_003 lines 97-99): `if (pushProm === pushing[p])
pushing[p] = null;` — the completing push clears the marker only when its
own promise is still the one stored for the path. -/
def completePush (st : SyncSt) (p : List Char) (id : Nat) : SyncSt :=
  if lookupA st.pushing p = some (some id) then
    { st with pushing := setA st.pushing p none }
  else st

/-- Result of one run of `sync.pullOne`: the final `mtimes` (PullRecord),
whether a download was started, whether the local destination was written
(the staged file moved onto it), whether the borrowed pool connection was
released, and whether the call resolved (no throw). -/
structure PullOneRes where
  mtimes : List (List Char × Nat)
  downloaded : Bool
  wroteLocal : Bool
  released : Bool
  resolved : Bool

/-- Embeds `pullOne` of sync.ts (src/unnamed/part_003 lines 108-121):
acquire a connection, read `lastMod(toRemotePath p)` (the `MyClient`
override applies `toRemotePath` once more), download-and-move only when
the remote time is strictly greater than `mtimes[p]` (a comparison against
an absent entry is `x > undefined`, which is false), then release. There
is no try/catch: when `lastMod` or the download throws (`lastModOk` or
`downloadOk` false), the function rejects before reaching the `release`
call. -/
def pullOne (remote : List Char → Nat) (lastModOk downloadOk : Bool)
    (mt : List (List Char × Nat)) (p : List Char) : PullOneRes :=
  if lastModOk = false then ⟨mt, false, false, false, false⟩
  else
    let newmtime := remote (Paths.toRemotePath (Paths.toRemotePath p))
    let need :=
      match lookupA mt p with
      | none => false
      | some m => decide (m < newmtime)
    if need then
      if downloadOk = false then ⟨mt, true, false, false, false⟩
      else ⟨setA mt p newmtime, true, true, true, true⟩
    else ⟨mt, false, false, true, true⟩

/-- Embeds `sync.pullOne` of the JS variant (src/unnamed/part_007 lines
120-137): the same logic, but the body is inside a try/catch whose handler
releases the connection before rethrowing, and the success path releases
at the end, so every exit path releases. -/
def pullOneJS (remote : List Char → Nat) (lastModOk downloadOk : Bool)
    (mt : List (List Char × Nat)) (p : List Char) : PullOneRes :=
  if lastModOk = false then ⟨mt, false, false, true, false⟩
  else
    let newmtime := remote (Paths.toRemotePath (Paths.toRemotePath p))
    let need :=
      match lookupA mt p with
      | none => false
      | some m => decide (m < newmtime)
    if need then
      if downloadOk = false then ⟨mt, true, false, true, false⟩
      else ⟨setA mt p newmtime, true, true, true, true⟩
    else ⟨mt, false, false, true, true⟩

end Sync

/-- Claim C2: `pull()` is a no-op, starting no `pullOne` and changing no
state, whenever the pull-running flag is set or some entry of the pending
push map is truthy. -/
theorem pull_noop_when_running_or_pending :
    ∀ (st : Sync.SyncSt),
      (st.pullRunning = true ∨
        st.pushing.any (fun e => e.2.isSome) = true) →
      Sync.pull st = (st, []) := by
  intro st h
  unfold Sync.pull
  rcases h with h | h
  · simp [h]
  · by_cases hr : st.pullRunning <;> simp [hr, h]

/-- A state with one pending push and no pull running, for the C2 witness. -/
def demoPending : Sync.SyncSt :=
  ⟨[], [("a".toList, some 0)], false, 1⟩

/-- Witness for C2 at a concrete state with a truthy pending-push entry. -/
theorem pull_noop_witness :
    demoPending.pushing.any (fun e => e.2.isSome) = true ∧
    Sync.pull demoPending = (demoPending, []) :=
  ⟨by decide, pull_noop_when_running_or_pending demoPending (Or.inr (by decide))⟩

/-- Claim C4: after a successful push of `p` (which records the read-back
remote modification time in `PullRecord[p]`) and with no intervening
remote change (the same `remote` map), a subsequent `pullOne p` finds the
remote time not strictly greater than the recorded one and performs no
download, no local write, and no change to PullRecord. -/
theorem push_then_pull_noop :
    ∀ (registry : List (List Char)) (remote : List Char → Nat)
      (mt : List (List Char × Nat)) (p : List Char),
      (Sync.push registry remote mt p).uploaded = true →
      Sync.pullOne remote true true (Sync.push registry remote mt p).mtimes p =
        ⟨(Sync.push registry remote mt p).mtimes, false, false, true, true⟩ := by
  intro registry remote mt p _
  show Sync.pullOne remote true true
      (setA mt p (remote (Paths.toRemotePath p))) p = _
  unfold Sync.pullOne
  simp [Paths.toRemotePath_idem, lookupA_setA_self, Sync.push, Sync.jsTruthy]

/-- Witness for C4 at a concrete registry, remote, map and path. -/
theorem push_then_pull_noop_witness :
    (Sync.push [] (fun _ => 7) [] ("db".toList)).uploaded = true ∧
    Sync.pullOne (fun _ => 7) true true
        (Sync.push [] (fun _ => 7) [] ("db".toList)).mtimes ("db".toList) =
      ⟨(Sync.push [] (fun _ => 7) [] ("db".toList)).mtimes,
        false, false, true, true⟩ :=
  ⟨rfl, push_then_pull_noop [] (fun _ => 7) [] ("db".toList) rfl⟩

/-- Claim C7: a completing push clears `pushing[p]` only when its promise
is still the most recently enqueued one for `p`. After two pushes of the
same path are enqueued in order, the completion of the first (stale) one
leaves the state untouched, while the completion of the second (current)
one clears the marker. -/
theorem stale_completion_never_clears :
    ∀ (st : Sync.SyncSt) (p : List Char),
      Sync.completePush (Sync.enqueuePush (Sync.enqueuePush st p).1 p).1 p
          (Sync.enqueuePush st p).2 =
        (Sync.enqueuePush (Sync.enqueuePush st p).1 p).1 ∧
      Sync.completePush (Sync.enqueuePush (Sync.enqueuePush st p).1 p).1 p
          (Sync.enqueuePush (Sync.enqueuePush st p).1 p).2 =
        { (Sync.enqueuePush (Sync.enqueuePush st p).1 p).1 with
            pushing :=
              setA (Sync.enqueuePush (Sync.enqueuePush st p).1 p).1.pushing
                p none } := by
  intro st p
  unfold Sync.enqueuePush Sync.completePush
  simp [lookupA_setA_self]

/-- Claim C8: the JS variant of `pullOne` (part_007) releases the borrowed
connection on every exit path, whatever the outcome of the remote
modification-time read and the download. The claim fails on the TS variant
(part_003), which has no try/catch: at a concrete state, a failing
`lastMod` (second conjunct) or a failing download (third conjunct) exits
without releasing the connection. -/
theorem pullOne_release_variants :
    (∀ (remote : List Char → Nat) (lm dl : Bool)
        (mt : List (List Char × Nat)) (p : List Char),
        (Sync.pullOneJS remote lm dl mt p).released = true) ∧
    (Sync.pullOne (fun _ => 5) false true [("db".toList, 0)]
        ("db".toList)).released = false ∧
    (Sync.pullOne (fun _ => 5) true false [("db".toList, 0)]
        ("db".toList)).released = false := by
  refine ⟨?_, by decide, by decide⟩
  intro remote lm dl mt p
  cases lm with
  | false => rfl
  | true =>
    cases h : lookupA mt p with
    | none => simp [Sync.pullOneJS, h]
    | some m =>
      cases hn : decide
          (m < remote (Paths.toRemotePath (Paths.toRemotePath p))) with
      | false => simp [Sync.pullOneJS, h, hn]
      | true => cases dl <;> simp [Sync.pullOneJS, h, hn]

namespace Watch

/-- The state the watcher task mutates on commit: the in-memory `mtimes`
map and the persisted `data/local_mtimes.json` file. -/
structure WatchSt where
  mtimes : List (List Char × Nat)
  persisted : List (List Char × Nat)

/-- Embeds the add/change task body of the watcher
(src/unnamed/part_002 lines 79-95): stat the file, and when
`shouldProcess` holds either `sync.push` (for a sync file) or
`build.auto` followed by `ftp.upload` (otherwise); only after the chosen
branch resolves are `mtimes[p] = mtime` and `fs.writeJSON` executed. A
throw anywhere skips the commit and is caught by the `.catch` at the
queue boundary, which logs it, so the second component records whether
the body succeeded. `pOk` is the outcome of `sync.push`, `bOk` of the
transform, `uOk` of the artifact upload. -/
def onChangeBody (st : WatchSt) (p : List Char) (m : Nat)
    (isSync pOk bOk uOk : Bool) : WatchSt × Bool :=
  if shouldProcess (lookupA st.mtimes p) m then
    if isSync then
      if pOk then (⟨setA st.mtimes p m, setA st.mtimes p m⟩, true)
      else (st, false)
    else
      if bOk then
        if uOk then (⟨setA st.mtimes p m, setA st.mtimes p m⟩, true)
        else (st, false)
      else (st, false)
  else (st, true)

end Watch

/-- Claim C3: the cached local mtime (in memory and on disk) is committed
only after the remote operation of the taken branch fully succeeded; a
failed run leaves the whole state unchanged, so an identical later change
event is still treated as new work. -/
theorem commit_only_after_remote_success :
    ∀ (st : Watch.WatchSt) (p : List Char) (m : Nat)
      (isSync pOk bOk uOk : Bool),
      ((Watch.onChangeBody st p m isSync pOk bOk uOk).2 = false →
        (Watch.onChangeBody st p m isSync pOk bOk uOk).1 = st) ∧
      (lookupA (Watch.onChangeBody st p m isSync pOk bOk uOk).1.mtimes p ≠
          lookupA st.mtimes p →
        (isSync = true → pOk = true) ∧
        (isSync = false → bOk = true ∧ uOk = true)) ∧
      (Watch.shouldProcess (lookupA st.mtimes p) m = true →
        (Watch.onChangeBody st p m isSync pOk bOk uOk).2 = false →
        Watch.shouldProcess
            (lookupA (Watch.onChangeBody st p m isSync pOk bOk uOk).1.mtimes p)
            m = true) := by
  intro st p m isSync pOk bOk uOk
  cases hq : Watch.shouldProcess (lookupA st.mtimes p) m <;>
    cases isSync <;> cases pOk <;> cases bOk <;> cases uOk <;>
    simp [Watch.onChangeBody, hq]

/-- Witness for C3: a failed build at a concrete state commits nothing. -/
theorem commit_only_after_remote_success_witness :
    (Watch.onChangeBody ⟨[], []⟩ ("a".toList) 1 false false false false).2 =
        false ∧
    (Watch.onChangeBody ⟨[], []⟩ ("a".toList) 1 false false false false).1 =
      ⟨[], []⟩ :=
  ⟨by decide,
    (commit_only_after_remote_success ⟨[], []⟩ ("a".toList) 1
        false false false false).1 (by decide)⟩

namespace Watch

/-- The settlement outcome of a JS promise. -/
inductive POutcome
  | fulfilled
  | rejected
deriving DecidableEq

/-- Semantics of `prev.then(task)`: the continuation runs only when the
predecessor fulfilled, and its outcome is then the outcome of the task
body; a rejected predecessor propagates without running the task. Returns
the resulting promise outcome and whether the task body ran. -/
def thenRun (prev task : POutcome) : POutcome × Bool :=
  match prev with
  | .fulfilled => (task, true)
  | .rejected => (.rejected, false)

/-- Semantics of the TS watcher boundary handler
(src/unnamed/part_002 lines 93-95): `.catch(e => centralizedLog(...))`
logs and returns normally, so the resulting promise always fulfills. -/
def catchAndLog : POutcome → POutcome
  | .fulfilled => .fulfilled
  | .rejected => .fulfilled

/-- Semantics of the JS watcher boundary handler
(src/build/watch.js `.catch(e => { throw e; })` directly after the task):
the handler rethrows, so a rejection stays a rejection. -/
def catchAndRethrow : POutcome → POutcome
  | .fulfilled => .fulfilled
  | .rejected => .rejected

/-- One enqueue step of the TS watcher per-path chain
(src/unnamed/part_002 lines 78-95):
`building[p] = prevProm.then(task).catch(log)`. -/
def chainStepTS (prev task : POutcome) : POutcome × Bool :=
  (catchAndLog (thenRun prev task).1, (thenRun prev task).2)

/-- One enqueue step of the JS watcher per-path chain
(src/build/watch.js lines 86-104):
`building[p] = prevProm.then(task).catch(e => { throw e; })`. -/
def chainStepJS (prev task : POutcome) : POutcome × Bool :=
  (catchAndRethrow (thenRun prev task).1, (thenRun prev task).2)

end Watch

/-- Claim C9 counterexample: in the JS watcher (src/build/watch.js) a
first task that runs and fails leaves the stored chain promise rejected
(the boundary catch rethrows), so a second task enqueued for the same
path never runs — the failure poisons the chain, contrary to the claim. -/
theorem chain_poisoned_in_watchjs :
    (Watch.chainStepJS Watch.POutcome.fulfilled Watch.POutcome.rejected).2 =
        true ∧
    (Watch.chainStepJS
        (Watch.chainStepJS Watch.POutcome.fulfilled
            Watch.POutcome.rejected).1
        Watch.POutcome.fulfilled).2 = false := by
  exact ⟨rfl, rfl⟩

/-- Claim C9, amended: in the TS watcher (part_002) the queue-boundary
catch logs the failure and resolves, so the stored chain promise always
fulfills and a task enqueued for the same path after a failed task still
runs; in the JS watcher (src/build/watch.js) the boundary catch rethrows,
so after a failed task every later task enqueued on that chain is
skipped. -/
theorem chain_continues_after_failure_ts :
    ∀ (prev t1 t2 : Watch.POutcome),
      (Watch.chainStepTS prev t1).1 = Watch.POutcome.fulfilled ∧
      (Watch.chainStepTS (Watch.chainStepTS prev t1).1 t2).2 = true := by
  intro prev t1 t2
  cases prev <;> cases t1 <;> cases t2 <;> exact ⟨rfl, rfl⟩

namespace Watch

/-- An execution of the per-path task chains built by the watcher. Task
`(p, i)` is the i-th add/change/remove task enqueued for path `p` (the
submission order). `building[p] = prevProm.then(task)` makes the (i+1)-th
task body a continuation of the i-th chain promise, so by the semantics
of `then` it starts no earlier than the i-th task settles
(`settled_before_next`); and a body settles no earlier than it starts
(`start_le_finish`). Nothing links tasks of distinct paths. -/
structure Exec where
  start : List Char → Nat → Nat
  finish : List Char → Nat → Nat
  start_le_finish : ∀ p i, start p i ≤ finish p i
  settled_before_next : ∀ p i, finish p i ≤ start p (i + 1)

end Watch

/-- An execution that schedules the tasks of path "a" before those of any
other path. -/
def execFirstA : Watch.Exec :=
  ⟨fun p i => if p = "a".toList then i else i + 5,
    fun p i => if p = "a".toList then i else i + 5,
    fun _ _ => Nat.le_refl _,
    by
      intro p i
      dsimp only
      by_cases h : p = "a".toList
      · rw [if_pos h, if_pos h]; exact Nat.le_succ i
      · rw [if_neg h, if_neg h]; omega⟩

/-- An execution that schedules the tasks of path "b" before those of any
other path. -/
def execFirstB : Watch.Exec :=
  ⟨fun p i => if p = "b".toList then i else i + 5,
    fun p i => if p = "b".toList then i else i + 5,
    fun _ _ => Nat.le_refl _,
    by
      intro p i
      dsimp only
      by_cases h : p = "b".toList
      · rw [if_pos h, if_pos h]; exact Nat.le_succ i
      · rw [if_neg h, if_neg h]; omega⟩

/-- Claim C5: in every execution of the per-path chains, of two tasks for
the same path submitted in order the earlier one settles before the later
one starts (they never overlap and run in submission order), while tasks
of distinct paths are not ordered: there are executions scheduling path
"a" before path "b" and executions scheduling "b" before "a". -/
theorem per_path_serialization :
    (∀ (E : Watch.Exec) (p : List Char) (i j : Nat),
        i < j → E.finish p i ≤ E.start p j) ∧
    (∃ E1 E2 : Watch.Exec,
        E1.start ("a".toList) 0 < E1.start ("b".toList) 0 ∧
        E2.start ("b".toList) 0 < E2.start ("a".toList) 0) := by
  constructor
  · intro E p i j hij
    induction j with
    | zero => exact absurd hij (Nat.not_lt_zero i)
    | succ j ih =>
      rcases eq_or_lt_of_le (Nat.lt_succ_iff.mp hij) with h | h
      · exact h ▸ E.settled_before_next p i
      · exact le_trans (ih h)
          (le_trans (E.start_le_finish p j) (E.settled_before_next p j))
  · exact ⟨execFirstA, execFirstB, by decide, by decide⟩

/-- A sequential execution for the C5 witness. -/
def execSeq : Watch.Exec :=
  ⟨fun _ i => i, fun _ i => i, fun _ _ => Nat.le_refl _,
    fun _ i => Nat.le_succ i⟩

/-- Witness for C5: in a concrete execution, for the concrete submission
order 0 before 1 on one path, the earlier task settles before the later
one starts. -/
theorem per_path_serialization_witness :
    (0 : Nat) < 1 ∧ execSeq.finish ("a".toList) 0 ≤ execSeq.start ("a".toList) 1 :=
  ⟨by decide, per_path_serialization.1 execSeq ("a".toList) 0 1 (by decide)⟩
